import Mathlib

/-!
Shallow embedding of the `videoanalytics` repository (src/main.py and
src/components/video_player.py) together with proofs about the embedded
operations.

Strings manipulated by the Python code are modelled as `List Char`;
Python float arithmetic on timestamps is modelled over `ℚ` (all
timestamp arithmetic in the code is +, /, which is exact on the
values of interest); the external collaborators (frame extractor,
captioning model) are modelled as oracle functions passed in as
parameters, exactly at the call boundary the code uses them.
-/

namespace VideoAnalytics

/-! ## Python string primitives

`splitFirst sep s` finds the first occurrence of `sep` in `s` and
returns the part before it and the part after it (`none` when `sep`
does not occur).  `pySplit` iterates this, giving exactly the
semantics of Python `s.split(sep)` for a non-empty separator:
the list of segments between consecutive non-overlapping occurrences,
scanned left to right.  `pyStrip` is Python `str.strip()`.
-/

def splitFirst (sep : List Char) : List Char → Option (List Char × List Char)
  | [] => none
  | c :: rest =>
    if sep.isPrefixOf (c :: rest) then some ([], (c :: rest).drop sep.length)
    else
      match splitFirst sep rest with
      | some (b, a) => some (c :: b, a)
      | none => none

/-- The backtick character. -/
def backtick : Char := Char.ofNat 96

/-- The segment of `s` before the first occurrence of `sep`
(`s` itself when `sep` does not occur): Python `s.split(sep)[0]`. -/
def beforeFirst (sep s : List Char) : List Char :=
  match splitFirst sep s with
  | some (b, _) => b
  | none => s

def pySplitAux (sep : List Char) : Nat → List Char → List (List Char)
  | 0, s => [s]
  | fuel + 1, s =>
    match splitFirst sep s with
    | none => [s]
    | some (b, a) => b :: pySplitAux sep fuel a

/-- Python `s.split(sep)` for a non-empty `sep`.  The fuel
`s.length + 1` is enough because every found occurrence of a
non-empty separator strictly shrinks the remaining suffix. -/
def pySplit (sep s : List Char) : List (List Char) :=
  pySplitAux sep (s.length + 1) s

/-- Python `sep in s` (substring containment). -/
def pyContains (sep s : List Char) : Bool :=
  (splitFirst sep s).isSome

/-- Python `s.strip()`. -/
def pyStrip (s : List Char) : List Char :=
  ((s.dropWhile Char.isWhitespace).reverse.dropWhile Char.isWhitespace).reverse

/-- The plain code fence, three backticks. -/
def fence : List Char := ("```").data

/-- The json code fence. -/
def fenceJson : List Char := ("```json").data

/-- src/main.py, `clean_json_string` (lines 76-81):
```text
def clean_json_string(s):
    if "` ` `json" in s:
        s = s.split("` ` `json")[1].split("` ` `")[0]
    elif "` ` `" in s:
        s = s.split("` ` `")[1].split("` ` `")[0]
    return s.strip()
```
(fences written spaced here to keep this comment a comment). -/
def clean_json_string (s : List Char) : List Char :=
  let t :=
    if pyContains fenceJson s then
      (pySplit fence ((pySplit fenceJson s).getD 1 [])).getD 0 []
    else if pyContains fence s then
      (pySplit fence ((pySplit fence s).getD 1 [])).getD 0 []
    else s
  pyStrip t

/-! ## Analysis pipeline (src/main.py, `run_analysis` and helpers)

The captioning model's parsed JSON response is modelled as an
association list of string keys to values (`Analysis`); a value is
either a string or a list of strings (`JVal`), which covers the
shapes the code reads (`beschreibung`, `stimmung` strings, `tags`
a list).  The frame extractor and the captioning call are oracles:
`extract_frame : ℚ → Option α` maps a millisecond timestamp to a
frame or `none` (cv2 read failure), and `analyze_frame : α → Analysis`
is the total result of `analyze_frame` in the code - either the
parsed response or the `error` dictionary it builds on exception. -/

inductive JVal where
  | str (s : String)
  | list (xs : List String)
  deriving DecidableEq

/-- A parsed captioning response: a Python dict from string keys. -/
def Analysis : Type := List (String × JVal)

/-- Python `key in analysis` for a dict. -/
def pyDictContains (key : String) (d : Analysis) : Bool :=
  d.any (fun kv => kv.1 == key)

/-- Python `analysis.get(key, default)`. -/
def pyDictGet (d : Analysis) (key : String) (default : JVal) : JVal :=
  match d.find? (fun kv => kv.1 == key) with
  | some kv => kv.2
  | none => default

/-- Line 145: `", ".join(tags) if isinstance(tags, list) else str(tags)`. -/
def joinTags : JVal → String
  | .list xs => String.intercalate ", " xs
  | .str s => s

/-- One detected scene interval, in milliseconds (the tuple
`(start, end)` computed at lines 128-131; detected scenes arrive as
`get_seconds() * 1000`, the fallback as `(0, dur)`). -/
structure Interval where
  start_ms : ℚ
  end_ms : ℚ
  deriving DecidableEq

/-- Line 133: `mid = (start + end) / 2`. -/
def midOf (sc : Interval) : ℚ :=
  (sc.start_ms + sc.end_ms) / 2

/-- One result record built at lines 140-147.  `Start_Time_s` and
`End_Time_s` hold the second values `start/1000`, `end/1000`; the code
renders them as two-decimal strings for display/persistence. -/
structure SceneResult where
  Scene_ID : Nat
  Start_Time_s : ℚ
  End_Time_s : ℚ
  Description : JVal
  Tags : String
  Mood : JVal
  deriving DecidableEq

/-- Lines 140-147: the record appended for a successfully analyzed scene
with 0-based loop index `i`. -/
def mkSceneResult (i : Nat) (sc : Interval) (analysis : Analysis) : SceneResult :=
  { Scene_ID := i + 1
  , Start_Time_s := sc.start_ms / 1000
  , End_Time_s := sc.end_ms / 1000
  , Description := pyDictGet analysis "beschreibung" (.str "-")
  , Tags := joinTags (pyDictGet analysis "tags" (.list []))
  , Mood := pyDictGet analysis "stimmung" (.str "-") }

/-- Observable actions of one pipeline run, in program order:
a frame-extraction attempt (`extract_frame` call at the midpoint),
a result record appended to `results`, a progress-bar report. -/
inductive Event where
  | attempt (time_ms : ℚ)
  | recorded (r : SceneResult)
  | progress (q : ℚ)
  deriving DecidableEq

/-- The body of the `for i, scene in enumerate(scenes)` loop
(lines 126-163) for one scene: extract the midpoint frame; if a frame
came back, analyze it; if the analysis has no `error` key, append the
result; finally report progress `(i + 1) / N`. -/
def sceneEvents {α : Type} (extract_frame : ℚ → Option α)
    (analyze_frame : α → Analysis) (N i : Nat) (sc : Interval) : List Event :=
  Event.attempt (midOf sc) ::
    (match extract_frame (midOf sc) with
     | none => []
     | some frame =>
       if pyDictContains "error" (analyze_frame frame) then []
       else [Event.recorded (mkSceneResult i sc (analyze_frame frame))])
    ++ [Event.progress (((i : ℚ) + 1) / (N : ℚ))]

/-- The whole loop over the scene list, starting at loop index `i`. -/
def runLoop {α : Type} (extract_frame : ℚ → Option α)
    (analyze_frame : α → Analysis) (N : Nat) :
    List Interval → Nat → List Event
  | [], _ => []
  | sc :: rest, i =>
    sceneEvents extract_frame analyze_frame N i sc ++
      runLoop extract_frame analyze_frame N rest (i + 1)

/-- Lines 116-121: the detected scene list, with the single fallback
interval `(0, duration)` substituted when detection found nothing. -/
def effectiveScenes (detected : List Interval) (duration_ms : ℚ) : List Interval :=
  if detected.isEmpty then [⟨0, duration_ms⟩] else detected

/-- src/main.py `run_analysis` (lines 107-166), as the ordered list of
its observable events.  `detected` is what `detect_scenes` returned
(already converted to millisecond intervals), `duration_ms` the
duration used for the fallback. -/
def run_analysis {α : Type} (extract_frame : ℚ → Option α)
    (analyze_frame : α → Analysis) (detected : List Interval)
    (duration_ms : ℚ) : List Event :=
  runLoop extract_frame analyze_frame
    (effectiveScenes detected duration_ms).length
    (effectiveScenes detected duration_ms) 0

/-- The `results` list the run returns: the recorded events in order. -/
def resultsOf (evs : List Event) : List SceneResult :=
  evs.filterMap (fun e =>
    match e with
    | .recorded r => some r
    | _ => none)

/-- The progress fractions reported, in order. -/
def progressOf (evs : List Event) : List ℚ :=
  evs.filterMap (fun e =>
    match e with
    | .progress q => some q
    | _ => none)

/-- How many frame-extraction attempts the run made. -/
def attemptsOf (evs : List Event) : Nat :=
  evs.countP (fun e =>
    match e with
    | .attempt _ => true
    | _ => false)

/-- The timestamps of the frame-extraction attempts, in order. -/
def attemptTimesOf (evs : List Event) : List ℚ :=
  evs.filterMap (fun e =>
    match e with
    | .attempt t => some t
    | _ => none)

/-- Whether the scene at interval `sc` produces a result under the
given oracles: the extraction yields a frame and the analysis carries
no `error` key (the two skip conditions at lines 136 and 138). -/
def sceneSucceeds {α : Type} (extract_frame : ℚ → Option α)
    (analyze_frame : α → Analysis) (sc : Interval) : Bool :=
  match extract_frame (midOf sc) with
  | none => false
  | some frame => ! pyDictContains "error" (analyze_frame frame)

/-! ## History store (src/main.py, lines 57-74) -/

/-- One history entry as built at lines 67-73. -/
structure AnalysisRun where
  id : Nat
  video_name : String
  date : String
  scene_count : Nat
  results : List SceneResult
  deriving DecidableEq

/-- `save_to_history` (lines 65-74): load the current document, insert
the new run at index 0 with `id = len(history) + 1`, rewrite the
document.  The JSON document is modelled as the list of runs it holds
(`load_history` returns `[]` when the file is absent, and re-reading
the file after `write_text` yields exactly what was written). -/
def save_to_history (video_name date : String) (results : List SceneResult)
    (history : List AnalysisRun) : List AnalysisRun :=
  { id := history.length + 1
  , video_name := video_name
  , date := date
  , scene_count := results.length
  , results := results } :: history

/-- Lines 256-263: after `run_analysis` returns, save to history and
show success iff `results` is non-empty, otherwise show an error and
leave the history untouched.  Returns the new history document and
whether the run was reported successful. -/
def finishRun (video_name date : String) (results : List SceneResult)
    (history : List AnalysisRun) : List AnalysisRun × Bool :=
  if results.isEmpty then (history, false)
  else (save_to_history video_name date results history, true)

/-! ## Password gate (src/main.py, lines 17-55) -/

/-- `password_entered` (lines 21-37): the value stored into
`st.session_state["password_correct"]`.  The two secrets are `none`
when the lookup `st.secrets[...]` raises (secret not configured);
any missing secret sends the code into the `except` branch, which
stores `True` unconditionally. -/
def password_entered (secretEmail secretPassword : Option String)
    (email password : String) : Bool :=
  match secretEmail, secretPassword with
  | some ce, some cp => email == ce && password == cp
  | _, _ => true

/-! ## Synced video player (src/components/video_player.py) -/

/-- One scene card dict as handed to `create_synced_video_player`:
`Scene_ID`, and the `Start_Time_s` / `End_Time_s` strings. -/
structure SceneCard where
  Scene_ID : Nat
  Start_Time_s : List Char
  End_Time_s : List Char
  deriving DecidableEq

/-- Digit-string value, used by `parseDec`. -/
def digitsVal (s : List Char) : Nat :=
  s.foldl (fun a c => a * 10 + (c.toNat - 48)) 0

/-- JavaScript `parseFloat` on the non-negative decimal literals the
player receives (the two-decimal `Start_Time_s`/`End_Time_s` texts):
the exact rational value of the decimal string. -/
def parseDec (s : List Char) : ℚ :=
  let intPart := s.takeWhile (fun c => c ≠ '.')
  let fracPart := (s.dropWhile (fun c => c ≠ '.')).drop 1
  (digitsVal intPart : ℚ) + (digitsVal fracPart : ℚ) / ((10 : ℚ) ^ fracPart.length)

/-- Line 203: `currentTime >= start && currentTime < end`. -/
def sceneContains (sc : SceneCard) (currentTime : ℚ) : Bool :=
  decide (parseDec sc.Start_Time_s ≤ currentTime) &&
    decide (currentTime < parseDec sc.End_Time_s)

/-- `updateActiveScene` (video_player.py lines 195-224), restricted to
the scene-selection part: scan `scenes` in order, return the
`Scene_ID` of the first scene whose half-open interval contains
`currentTime` (`activeSceneId`), `null` when none matches. -/
def updateActiveScene (scenes : List SceneCard) (currentTime : ℚ) : Option Nat :=
  (scenes.find? (fun sc => sceneContains sc currentTime)).map SceneCard.Scene_ID

/-! ## Concrete test fixtures used by counterexamples and witnesses -/

/-- Three detected scenes of 2 seconds each, in milliseconds. -/
def scenesC : List Interval := [⟨0, 2000⟩, ⟨2000, 4000⟩, ⟨4000, 6000⟩]

/-- A well-formed captioning response. -/
def okAnalysis : Analysis :=
  [("beschreibung", .str "ok"), ("tags", .list ["a", "b"]), ("stimmung", .str "gut")]

/-- A captioning response that parses to an object carrying an `error`
key next to the three regular fields. -/
def errorWithFields : Analysis :=
  [("error", .str "quota"), ("beschreibung", .str "ok"),
   ("tags", .list ["a", "b"]), ("stimmung", .str "gut")]

/-- Frame-extraction oracle that fails exactly at timestamp 3000 ms,
the midpoint of the second scene of `scenesC`. -/
def exC : ℚ → Option Nat := fun t => if t == 3000 then none else some 0

/-- Captioning oracle that always succeeds. -/
def anC : Nat → Analysis := fun _ => okAnalysis

/-- The two scene cards of the active-scene example:
`(1, "0.00", "5.00")` and `(2, "5.00", "9.00")`. -/
def demoCard1 : SceneCard := ⟨1, ("0.00").data, ("5.00").data⟩

def demoCard2 : SceneCard := ⟨2, ("5.00").data, ("9.00").data⟩

def demoScenes : List SceneCard := [demoCard1, demoCard2]

/-- Inner content whose body itself contains a code fence: a valid
JSON object whose string value embeds three backticks twice. -/
def trickyBody : List Char := ("\x7b\"a\": \"x``` 1 ```y\"\x7d").data

/-- A plain fenced-response body: no backtick, does not begin with
the four letters of the word json. -/
def plainBody : List Char := ("\x7b\"beschreibung\": \"ok\"\x7d").data

end VideoAnalytics

-- concrete evaluations of the string primitives against Python semantics
example : VideoAnalytics.pySplit ("ab").data ("xabyabz").data =
    [("x").data, ("y").data, ("z").data] := by decide
example : VideoAnalytics.pySplit ("aa").data ("aaa").data =
    [[], ("a").data] := by decide
example : VideoAnalytics.clean_json_string (("```json \x7b\"a\": 1\x7d ```").data) =
    ("\x7b\"a\": 1\x7d").data := by decide
example : VideoAnalytics.clean_json_string (("``` \x7b\"a\": 1\x7d ```").data) =
    ("\x7b\"a\": 1\x7d").data := by decide
example : VideoAnalytics.clean_json_string (("  \x7b\"a\": 1\x7d ").data) =
    ("\x7b\"a\": 1\x7d").data := by decide

namespace VideoAnalytics

/-! ## Lemmas about one loop iteration and the whole loop -/

lemma resultsOf_append (a b : List Event) :
    resultsOf (a ++ b) = resultsOf a ++ resultsOf b :=
  List.filterMap_append a b _

lemma progressOf_append (a b : List Event) :
    progressOf (a ++ b) = progressOf a ++ progressOf b :=
  List.filterMap_append a b _

lemma attemptTimesOf_append (a b : List Event) :
    attemptTimesOf (a ++ b) = attemptTimesOf a ++ attemptTimesOf b :=
  List.filterMap_append a b _

lemma attemptsOf_append (a b : List Event) :
    attemptsOf (a ++ b) = attemptsOf a + attemptsOf b :=
  List.countP_append _ a b

lemma sceneIds_sceneEvents {α : Type} (ex : ℚ → Option α) (an : α → Analysis)
    (N i : Nat) (sc : Interval) :
    (resultsOf (sceneEvents ex an N i sc)).map SceneResult.Scene_ID =
      if sceneSucceeds ex an sc then [i + 1] else [] := by
  unfold sceneEvents sceneSucceeds
  cases hf : ex (midOf sc) with
  | none => simp [resultsOf]
  | some frame =>
    cases he : pyDictContains "error" (an frame) <;>
      simp [resultsOf, mkSceneResult, he]

lemma progressOf_sceneEvents {α : Type} (ex : ℚ → Option α) (an : α → Analysis)
    (N i : Nat) (sc : Interval) :
    progressOf (sceneEvents ex an N i sc) = [((i : ℚ) + 1) / (N : ℚ)] := by
  unfold sceneEvents
  cases hf : ex (midOf sc) with
  | none => simp [progressOf]
  | some frame =>
    cases he : pyDictContains "error" (an frame) <;> simp [progressOf]

lemma attemptsOf_sceneEvents {α : Type} (ex : ℚ → Option α) (an : α → Analysis)
    (N i : Nat) (sc : Interval) :
    attemptsOf (sceneEvents ex an N i sc) = 1 := by
  unfold sceneEvents
  cases hf : ex (midOf sc) with
  | none => simp [attemptsOf]
  | some frame =>
    cases he : pyDictContains "error" (an frame) <;> simp [attemptsOf]

lemma attemptTimesOf_sceneEvents {α : Type} (ex : ℚ → Option α) (an : α → Analysis)
    (N i : Nat) (sc : Interval) :
    attemptTimesOf (sceneEvents ex an N i sc) = [midOf sc] := by
  unfold sceneEvents
  cases hf : ex (midOf sc) with
  | none => simp [attemptTimesOf]
  | some frame =>
    cases he : pyDictContains "error" (an frame) <;> simp [attemptTimesOf]

lemma sceneIds_runLoop {α : Type} (ex : ℚ → Option α) (an : α → Analysis)
    (N : Nat) (scenes : List Interval) (i : Nat) :
    (resultsOf (runLoop ex an N scenes i)).map SceneResult.Scene_ID =
      ((List.enumFrom i scenes).filter (fun p => sceneSucceeds ex an p.2)).map
        (fun p => p.1 + 1) := by
  induction scenes generalizing i with
  | nil => simp [runLoop, resultsOf]
  | cons sc rest IH =>
    rw [List.enumFrom_cons, List.filter_cons]
    cases h : sceneSucceeds ex an sc <;>
      simp [runLoop, resultsOf_append, sceneIds_sceneEvents, h, IH]

lemma progressOf_runLoop {α : Type} (ex : ℚ → Option α) (an : α → Analysis)
    (N : Nat) (scenes : List Interval) (i : Nat) :
    progressOf (runLoop ex an N scenes i) =
      (List.range' (i + 1) scenes.length).map (fun k => (k : ℚ) / (N : ℚ)) := by
  induction scenes generalizing i with
  | nil => simp [runLoop, progressOf]
  | cons sc rest IH =>
    rw [show (sc :: rest).length = rest.length + 1 from rfl, List.range'_succ]
    simp [runLoop, progressOf_append, progressOf_sceneEvents, IH, Nat.cast_add,
      Nat.cast_one]

lemma attemptsOf_runLoop {α : Type} (ex : ℚ → Option α) (an : α → Analysis)
    (N : Nat) (scenes : List Interval) (i : Nat) :
    attemptsOf (runLoop ex an N scenes i) = scenes.length := by
  induction scenes generalizing i with
  | nil => simp [runLoop, attemptsOf]
  | cons sc rest IH =>
    simp [runLoop, attemptsOf_append, attemptsOf_sceneEvents, IH]
    omega

lemma attemptTimesOf_runLoop {α : Type} (ex : ℚ → Option α) (an : α → Analysis)
    (N : Nat) (scenes : List Interval) (i : Nat) :
    attemptTimesOf (runLoop ex an N scenes i) = scenes.map midOf := by
  induction scenes generalizing i with
  | nil => simp [runLoop, attemptTimesOf]
  | cons sc rest IH =>
    simp [runLoop, attemptTimesOf_append, attemptTimesOf_sceneEvents, IH]

lemma sceneIdsC : (resultsOf (run_analysis exC anC scenesC 0)).map
    SceneResult.Scene_ID = [1, 3] := by
  norm_num [run_analysis, effectiveScenes, scenesC, runLoop, sceneEvents, midOf,
    exC, anC, resultsOf, okAnalysis, pyDictContains, mkSceneResult, beq_iff_eq]
  decide

lemma snd_mem_of_mem_enumFrom {β : Type} {l : List β} {i : Nat} {p : Nat × β}
    (h : p ∈ List.enumFrom i l) : p.2 ∈ l := by
  obtain ⟨a, b⟩ := p
  rcases List.mem_enumFrom h with ⟨-, -, hb⟩
  simp [hb]

lemma pairwise_fst_enumFrom {β : Type} (l : List β) (i : Nat) :
    (List.enumFrom i l).Pairwise (fun a b => a.1 < b.1) := by
  induction l generalizing i with
  | nil => simp
  | cons x xs IH =>
    rw [List.enumFrom_cons]
    refine List.Pairwise.cons ?_ (IH (i + 1))
    intro p hp
    obtain ⟨a, b⟩ := p
    have := (List.mem_enumFrom hp).1
    simpa using Nat.lt_of_succ_le this

lemma enumFrom_map_fst_succ {β : Type} (l : List β) (i : Nat) :
    (List.enumFrom i l).map (fun p => p.1 + 1) = List.range' (i + 1) l.length := by
  induction l generalizing i with
  | nil => simp
  | cons x xs IH => simp [List.enumFrom_cons, List.range'_succ, IH]

/-- C1: every recorded SceneResult carries `scene_id` equal to its
1-based detection-order index (`i + 1` for 0-based loop index `i`),
results appear for exactly the successfully processed intervals in
detection order (a skipped interval leaves a gap, no renumbering),
and every interval is still attempted.  Concretely, for three detected
intervals where the second one's frame extraction fails, the result
sequence has length 2 with `scene_id` values 1 and 3. -/
theorem c1_scene_ids_keep_detection_index :
    (∀ (α : Type) (ex : ℚ → Option α) (an : α → Analysis)
      (detected : List Interval) (dur : ℚ),
      (resultsOf (run_analysis ex an detected dur)).map SceneResult.Scene_ID =
        ((List.enumFrom 0 (effectiveScenes detected dur)).filter
          (fun p => sceneSucceeds ex an p.2)).map (fun p => p.1 + 1) ∧
      attemptsOf (run_analysis ex an detected dur) =
        (effectiveScenes detected dur).length) ∧
    (resultsOf (run_analysis exC anC scenesC 0)).map SceneResult.Scene_ID =
      [1, 3] ∧
    (resultsOf (run_analysis exC anC scenesC 0)).length = 2 := by
  refine ⟨fun α ex an detected dur =>
    ⟨sceneIds_runLoop ex an _ _ 0, attemptsOf_runLoop ex an _ _ 0⟩, sceneIdsC, ?_⟩
  have h := sceneIdsC
  have : ((resultsOf (run_analysis exC anC scenesC 0)).map
      SceneResult.Scene_ID).length = 2 := by rw [h]; rfl
  simpa using this

/-- C2 counterexample: in the concrete run where the second of three
detected intervals fails, the recorded `scene_id` sequence is `[1, 3]`,
which is not contiguous-from-1 (it is not `range' 1 2 = [1, 2]`),
refuting the claimed invariant for runs with skipped intervals. -/
theorem c2_counterexample_not_contiguous :
    ¬ ((resultsOf (run_analysis exC anC scenesC 0)).map SceneResult.Scene_ID =
      List.range' 1 ((resultsOf (run_analysis exC anC scenesC 0)).map
        SceneResult.Scene_ID).length) := by
  rw [sceneIdsC]
  decide

/-- C2 amended: within one run the `scene_id` values are strictly
increasing; they are additionally contiguous starting at 1 when no
interval was skipped (every interval succeeded). -/
theorem c2_scene_ids_strictly_increasing :
    ∀ (α : Type) (ex : ℚ → Option α) (an : α → Analysis)
      (detected : List Interval) (dur : ℚ),
      List.Pairwise (· < ·)
        ((resultsOf (run_analysis ex an detected dur)).map SceneResult.Scene_ID) ∧
      ((∀ sc ∈ effectiveScenes detected dur, sceneSucceeds ex an sc = true) →
        (resultsOf (run_analysis ex an detected dur)).map SceneResult.Scene_ID =
          List.range' 1 (effectiveScenes detected dur).length) := by
  intro α ex an detected dur
  constructor
  · rw [run_analysis, sceneIds_runLoop]
    rw [List.pairwise_map]
    exact ((pairwise_fst_enumFrom _ 0).filter _).imp (fun h => by omega)
  · intro hall
    rw [run_analysis, sceneIds_runLoop]
    rw [List.filter_eq_self.mpr
      (fun p hp => hall p.2 (snd_mem_of_mem_enumFrom hp))]
    exact enumFrom_map_fst_succ _ 0

/-- Witness for the amended C2: a concrete run of the three fixture
scenes with always-succeeding oracles yields `scene_id` values
`[1, 2, 3] = range' 1 3`. -/
theorem c2_scene_ids_witness :
    (resultsOf (run_analysis (fun _ => some 0) anC scenesC 0)).map
      SceneResult.Scene_ID =
      List.range' 1 (effectiveScenes scenesC 0).length :=
  (c2_scene_ids_strictly_increasing Nat (fun _ => some 0) anC scenesC 0).2
    (by decide)

/-- C5: appending a run to a history of length `L` and reading the
document back yields the just-appended run first, with
`id = L + 1`, `scene_count` the number of results and the given
video name, followed by the previously stored runs in their prior
order. -/
theorem c5_history_append_then_load :
    ∀ (name date : String) (results : List SceneResult)
      (history : List AnalysisRun),
      (save_to_history name date results history).head? =
        some { id := history.length + 1, video_name := name, date := date
             , scene_count := results.length, results := results } ∧
      (save_to_history name date results history).tail = history := by
  intro name date results history
  exact ⟨rfl, rfl⟩

/-- C6: for a run over `N ≥ 1` detected intervals, the pipeline
attempts exactly `N` intervals - one frame-extraction attempt per
interval, at its midpoint, in order - and reports the progress
fractions `1/N, ..., N/N` in order, regardless of which intervals
produced a result. -/
theorem c6_progress_fractions_and_attempts :
    ∀ (α : Type) (ex : ℚ → Option α) (an : α → Analysis)
      (detected : List Interval) (dur : ℚ),
      detected ≠ [] →
      progressOf (run_analysis ex an detected dur) =
        (List.range' 1 detected.length).map
          (fun k => (k : ℚ) / (detected.length : ℚ)) ∧
      attemptsOf (run_analysis ex an detected dur) = detected.length ∧
      attemptTimesOf (run_analysis ex an detected dur) = detected.map midOf := by
  intro α ex an detected dur hne
  have heff : effectiveScenes detected dur = detected := by
    simp [effectiveScenes, hne]
  rw [run_analysis, heff]
  exact ⟨progressOf_runLoop ex an _ _ 0, attemptsOf_runLoop ex an _ _ 0,
    attemptTimesOf_runLoop ex an _ _ 0⟩

/-- Witness for C6 at the three fixture scenes: progress `1/3, 2/3, 1`
(as rationals `k/3`), three attempts, at the three midpoints. -/
theorem c6_progress_witness :
    progressOf (run_analysis exC anC scenesC 0) =
      (List.range' 1 scenesC.length).map
        (fun k => (k : ℚ) / (scenesC.length : ℚ)) ∧
    attemptsOf (run_analysis exC anC scenesC 0) = scenesC.length ∧
    attemptTimesOf (run_analysis exC anC scenesC 0) = scenesC.map midOf :=
  c6_progress_fractions_and_attempts Nat exC anC scenesC 0 (by decide)

/-- C7: when detection returns no interval, exactly one fallback
interval `[0, duration]` is substituted, and the run processes exactly
that one scene (one extraction attempt, at its midpoint). -/
theorem c7_empty_detection_fallback :
    ∀ (α : Type) (ex : ℚ → Option α) (an : α → Analysis)
      (detected : List Interval) (dur : ℚ),
      detected = [] →
      effectiveScenes detected dur = [⟨0, dur⟩] ∧
      attemptsOf (run_analysis ex an detected dur) = 1 ∧
      attemptTimesOf (run_analysis ex an detected dur) = [midOf ⟨0, dur⟩] := by
  intro α ex an detected dur he
  subst he
  refine ⟨rfl, ?_, ?_⟩
  · rw [run_analysis]
    exact attemptsOf_runLoop ex an _ _ 0
  · rw [run_analysis]
    exact attemptTimesOf_runLoop ex an _ _ 0

/-- Witness for C7 at a 10-second video. -/
theorem c7_fallback_witness :
    effectiveScenes [] 10000 = [⟨0, 10000⟩] ∧
    attemptsOf (run_analysis (fun _ => some 0) anC [] 10000) = 1 ∧
    attemptTimesOf (run_analysis (fun _ => some 0) anC [] 10000) =
      [midOf ⟨0, 10000⟩] :=
  c7_empty_detection_fallback Nat (fun _ => some 0) anC [] 10000 rfl

/-- C8: a run that accumulated no results is reported failed and
leaves the history document unchanged; a run with a non-empty result
sequence is reported successful and writes exactly one new history
entry (the document grows by one, in front of the prior entries). -/
theorem c8_empty_run_writes_no_history :
    ∀ (name date : String) (results : List SceneResult)
      (history : List AnalysisRun),
      (results = [] → finishRun name date results history = (history, false)) ∧
      (results ≠ [] →
        (finishRun name date results history).1 =
          save_to_history name date results history ∧
        (finishRun name date results history).1.length = history.length + 1 ∧
        (finishRun name date results history).1.tail = history ∧
        (finishRun name date results history).2 = true) := by
  intro name date results history
  constructor
  · intro he
    subst he
    rfl
  · intro hne
    have : results.isEmpty = false := by
      simpa [List.isEmpty_iff] using hne
    simp [finishRun, this, save_to_history]

/-- Witness for C8: the empty result list writes nothing; a singleton
result list writes exactly one entry. -/
theorem c8_history_witness :
    finishRun "v.mp4" "2024-01-01 00:00" [] [] = ([], false) ∧
    (finishRun "v.mp4" "2024-01-01 00:00" [mkSceneResult 0 ⟨0, 1000⟩ okAnalysis]
        []).1.length = 0 + 1 :=
  ⟨(c8_empty_run_writes_no_history "v.mp4" "2024-01-01 00:00" [] []).1 rfl,
   (List.length_nil ▸
     ((c8_empty_run_writes_no_history "v.mp4" "2024-01-01 00:00"
       [mkSceneResult 0 ⟨0, 1000⟩ okAnalysis] []).2 (by simp)).2.1)⟩

/-- C9: when either configured secret is absent (its lookup raises),
`password_entered` marks the session authenticated for any entered
credentials, so the whole application is reachable without a login;
when both secrets are present, authentication succeeds exactly for the
matching credentials. -/
theorem c9_missing_secrets_skip_auth :
    (∀ (se sp : Option String) (email pw : String),
      se = none ∨ sp = none → password_entered se sp email pw = true) ∧
    (∀ (ce cp email pw : String),
      password_entered (some ce) (some cp) email pw = true ↔
        email = ce ∧ pw = cp) := by
  constructor
  · intro se sp email pw h
    rcases h with h | h
    · subst h
      cases sp <;> rfl
    · subst h
      cases se <;> rfl
  · intro ce cp email pw
    simp [password_entered]

/-- Witness for C9: with no password secret configured, arbitrary
credentials authenticate. -/
theorem c9_skip_auth_witness :
    password_entered (some "admin") none "anyone" "wrong" = true :=
  c9_missing_secrets_skip_auth.1 (some "admin") none "anyone" "wrong"
    (Or.inr rfl)

/-- C10: a captioning response that parses to an object containing an
`error` key - even alongside the regular description, tags and mood
fields - records no SceneResult for that scene, and the scene's
observable events are identical to those of a transport or parse
failure (which yields the single-key `error` object). -/
theorem c10_error_key_drops_scene :
    ∀ (α : Type) (ex : ℚ → Option α) (a : Analysis) (N i : Nat)
      (sc : Interval) (msg : String),
      pyDictContains "error" a = true →
      resultsOf (sceneEvents ex (fun _ => a) N i sc) = [] ∧
      sceneEvents ex (fun _ => a) N i sc =
        sceneEvents ex (fun _ => ([("error", JVal.str msg)] : Analysis)) N i sc := by
  intro α ex a N i sc msg herr
  constructor
  · unfold sceneEvents
    cases hf : ex (midOf sc) with
    | none => simp [resultsOf]
    | some frame => simp [resultsOf, herr]
  · unfold sceneEvents
    cases hf : ex (midOf sc) with
    | none => rfl
    | some frame =>
      have : pyDictContains "error" ([("error", JVal.str msg)] : Analysis) =
          true := rfl
      simp [herr, this]

/-- Witness for C10: the fixture response carrying `error` together
with description, tags and mood is dropped exactly like a transport
failure. -/
theorem c10_error_key_witness :
    resultsOf (sceneEvents (fun _ => some 0) (fun _ => errorWithFields) 1 0
      ⟨0, 1000⟩) = [] ∧
    sceneEvents (fun _ => (some 0 : Option Nat)) (fun _ => errorWithFields) 1 0
        ⟨0, 1000⟩ =
      sceneEvents (fun _ => some 0)
        (fun _ => ([("error", JVal.str "boom")] : Analysis)) 1 0 ⟨0, 1000⟩ :=
  c10_error_key_drops_scene Nat (fun _ => some 0) errorWithFields 1 0 ⟨0, 1000⟩
    "boom" (by decide)

/-! ## Active-scene selection (C4) -/

lemma parseDec_eval (s intPart fracPart : List Char)
    (h1 : s.takeWhile (fun c => c ≠ '.') = intPart)
    (h2 : (s.dropWhile (fun c => c ≠ '.')).drop 1 = fracPart) :
    parseDec s =
      (digitsVal intPart : ℚ) +
        (digitsVal fracPart : ℚ) / ((10 : ℚ) ^ fracPart.length) := by
  simp only [parseDec, h1, h2]

lemma parseDec5 : parseDec ['5', '.', '0', '0'] = 5 := by
  rw [parseDec_eval _ ['5'] ['0', '0'] (by decide) (by decide)]
  norm_num [show digitsVal ['5'] = 5 from by decide,
    show digitsVal ['0', '0'] = 0 from by decide]

lemma parseDec0 : parseDec ['0', '.', '0', '0'] = 0 := by
  rw [parseDec_eval _ ['0'] ['0', '0'] (by decide) (by decide)]
  norm_num [show digitsVal ['0'] = 0 from by decide,
    show digitsVal ['0', '0'] = 0 from by decide]

lemma parseDec9 : parseDec ['9', '.', '0', '0'] = 9 := by
  rw [parseDec_eval _ ['9'] ['0', '0'] (by decide) (by decide)]
  norm_num [show digitsVal ['9'] = 9 from by decide,
    show digitsVal ['0', '0'] = 0 from by decide]

lemma demoCard1_contains (t : ℚ) :
    sceneContains demoCard1 t = (decide (0 ≤ t) && decide (t < 5)) := by
  simp only [sceneContains, demoCard1, parseDec0, parseDec5]

lemma demoCard2_contains (t : ℚ) :
    sceneContains demoCard2 t = (decide (5 ≤ t) && decide (t < 9)) := by
  simp only [sceneContains, demoCard2, parseDec5, parseDec9]

lemma demoCard1_at5 : sceneContains demoCard1 5 = false := by
  rw [demoCard1_contains]
  norm_num

lemma demoCard2_at5 : sceneContains demoCard2 5 = true := by
  rw [demoCard2_contains]
  norm_num

/-- C4: the active-scene selection scans the ordered card list and
selects the first card whose half-open `[start, end)` interval
contains the current position; it selects none exactly when no
interval contains the position.  On the two example cards
`(1, 0.00-5.00)` and `(2, 5.00-9.00)`, position `4.99` selects
scene 1, `5.00` selects scene 2 and `9.00` selects none. -/
theorem c4_active_scene_selection :
    (∀ (scenes : List SceneCard) (t : ℚ),
      updateActiveScene scenes t = none ↔
        ∀ sc ∈ scenes, sceneContains sc t = false) ∧
    (∀ (xs ys : List SceneCard) (sc : SceneCard) (t : ℚ),
      sceneContains sc t = true →
      (∀ x ∈ xs, sceneContains x t = false) →
      updateActiveScene (xs ++ sc :: ys) t = some sc.Scene_ID) ∧
    updateActiveScene demoScenes (499 / 100) = some 1 ∧
    updateActiveScene demoScenes 5 = some 2 ∧
    updateActiveScene demoScenes 9 = none := by
  have hnone : ∀ (scenes : List SceneCard) (t : ℚ),
      updateActiveScene scenes t = none ↔
        ∀ sc ∈ scenes, sceneContains sc t = false := by
    intro scenes t
    rw [updateActiveScene, Option.map_eq_none', List.find?_eq_none]
    simp
  have hfirst : ∀ (xs ys : List SceneCard) (sc : SceneCard) (t : ℚ),
      sceneContains sc t = true →
      (∀ x ∈ xs, sceneContains x t = false) →
      updateActiveScene (xs ++ sc :: ys) t = some sc.Scene_ID := by
    intro xs ys sc t hsc hxs
    rw [updateActiveScene, List.find?_append,
      List.find?_eq_none.mpr (by simpa using hxs), Option.none_or,
      @List.find?_cons_of_pos _ (fun x => sceneContains x t) sc ys hsc]
    rfl
  refine ⟨hnone, hfirst, ?_, ?_, ?_⟩
  · have h1 : sceneContains demoCard1 (499 / 100) = true := by
      rw [demoCard1_contains]
      norm_num
    have := hfirst [] [demoCard2] demoCard1 (499 / 100) h1 (by simp)
    simpa [demoScenes] using this
  · have := hfirst [demoCard1] [] demoCard2 5 demoCard2_at5
      (by simpa using demoCard1_at5)
    simpa [demoScenes] using this
  · rw [hnone]
    intro sc hsc
    rcases (by simpa [demoScenes] using hsc : sc = demoCard1 ∨ sc = demoCard2)
      with rfl | rfl
    · rw [demoCard1_contains]
      norm_num
    · rw [demoCard2_contains]
      norm_num

/-- Witness for C4: scene 2's interval contains position 5, scene 1's
does not, and the scan of `[card1, card2]` selects scene 2. -/
theorem c4_active_scene_witness :
    updateActiveScene ([demoCard1] ++ demoCard2 :: []) 5 =
      some demoCard2.Scene_ID :=
  c4_active_scene_selection.2.1 [demoCard1] [] demoCard2 5 demoCard2_at5
    (by simp [demoCard1_at5])

/-! ## Fence stripping (C3)

The structural lemmas below locate the first occurrence of a fence in
the three presentation forms of a response body. -/

lemma isPrefixOf_eq_true_iff {l₁ l₂ : List Char} :
    l₁.isPrefixOf l₂ = true ↔ l₁ <+: l₂ :=
  List.isPrefixOf_iff_prefix

lemma prefix_total_of_common {l₁ l₂ l₃ : List Char} (h₁ : l₁ <+: l₃)
    (h₂ : l₂ <+: l₃) : l₁ <+: l₂ ∨ l₂ <+: l₁ :=
  List.prefix_or_prefix_of_prefix h₁ h₂

lemma splitFirst_cons_none {sep : List Char} {c : Char} {rest : List Char}
    (hpre : sep.isPrefixOf (c :: rest) = false)
    (hrest : splitFirst sep rest = none) :
    splitFirst sep (c :: rest) = none := by
  simp [splitFirst, hpre, hrest]

lemma splitFirst_cons_found {sep : List Char} {c : Char} {rest b a : List Char}
    (hpre : sep.isPrefixOf (c :: rest) = false)
    (hrest : splitFirst sep rest = some (b, a)) :
    splitFirst sep (c :: rest) = some (c :: b, a) := by
  simp [splitFirst, hpre, hrest]

lemma splitFirst_head_notMem {c : Char} {sep' : List Char} :
    ∀ {s : List Char}, c ∉ s → splitFirst (c :: sep') s = none := by
  intro s
  induction s with
  | nil => intro _; rfl
  | cons d ds IH =>
    intro h
    have hcd : (c == d) = false := by
      simp only [beq_eq_false_iff_ne, ne_eq]
      intro hh
      exact h (hh ▸ List.mem_cons_self d ds)
    exact splitFirst_cons_none
      (by simp [List.isPrefixOf_cons₂, hcd])
      (IH (fun hm => h (List.mem_cons_of_mem d hm)))

lemma splitFirst_append_self {sep : List Char} (hne : sep ≠ []) (t : List Char) :
    splitFirst sep (sep ++ t) = some ([], t) := by
  obtain ⟨c, sep', rfl⟩ : ∃ c sep', sep = c :: sep' := by
    cases sep with
    | nil => exact absurd rfl hne
    | cons c sep' => exact ⟨c, sep', rfl⟩
  show splitFirst (c :: sep') (c :: (sep' ++ t)) = some ([], t)
  have hpre : (c :: sep').isPrefixOf (c :: (sep' ++ t)) = true :=
    isPrefixOf_eq_true_iff.mpr (List.prefix_append _ _)
  simp [splitFirst, hpre, List.drop_left]

lemma isPrefixOf_append_cancel (p q r : List Char) :
    (p ++ q).isPrefixOf (p ++ r) = q.isPrefixOf r := by
  cases hq : q.isPrefixOf r with
  | true =>
    exact isPrefixOf_eq_true_iff.mpr
      ((List.prefix_append_right_inj p).mpr (isPrefixOf_eq_true_iff.mp hq))
  | false =>
    cases hpq : (p ++ q).isPrefixOf (p ++ r) with
    | false => rfl
    | true =>
      have := (List.prefix_append_right_inj p).mp
        (isPrefixOf_eq_true_iff.mp hpq)
      rw [isPrefixOf_eq_true_iff.mpr this] at hq
      exact absurd hq (by decide)

lemma splitFirst_fence_end {s : List Char} (h1 : backtick ∉ s) :
    splitFirst fence (s ++ fence) = some (s, []) := by
  induction s with
  | nil => decide
  | cons c cs IH =>
    have hc : (backtick == c) = false := by
      simp only [beq_eq_false_iff_ne, ne_eq]
      intro hh
      exact h1 (hh ▸ List.mem_cons_self c cs)
    have hpre : fence.isPrefixOf (c :: (cs ++ fence)) = false := by
      rw [show fence = backtick :: (("``").data) from by decide]
      simp [List.isPrefixOf_cons₂, hc]
    exact splitFirst_cons_found hpre
      (IH (fun hm => h1 (List.mem_cons_of_mem c hm)))

lemma splitFirst_fenceJson_end {s : List Char} (h1 : backtick ∉ s) :
    splitFirst fenceJson (s ++ fence) = none := by
  induction s with
  | nil => decide
  | cons c cs IH =>
    have hc : (backtick == c) = false := by
      simp only [beq_eq_false_iff_ne, ne_eq]
      intro hh
      exact h1 (hh ▸ List.mem_cons_self c cs)
    have hpre : fenceJson.isPrefixOf (c :: (cs ++ fence)) = false := by
      rw [show fenceJson = backtick :: (("``json").data) from by decide]
      simp [List.isPrefixOf_cons₂, hc]
    exact splitFirst_cons_none hpre
      (IH (fun hm => h1 (List.mem_cons_of_mem c hm)))

lemma json_isPrefixOf_append_fence {s : List Char}
    (h2 : ("json").data.isPrefixOf s = false) :
    ("json").data.isPrefixOf (s ++ fence) = false := by
  cases hp : ("json").data.isPrefixOf (s ++ fence) with
  | false => rfl
  | true =>
    exfalso
    have hpre : ("json").data <+: s ++ fence := isPrefixOf_eq_true_iff.mp hp
    rcases prefix_total_of_common hpre (List.prefix_append s fence)
      with hj | hsj
    · rw [isPrefixOf_eq_true_iff.mpr hj] at h2
      exact absurd h2 (by decide)
    · obtain ⟨u, hu⟩ := hsj
      cases u with
      | nil =>
        rw [List.append_nil] at hu
        rw [hu, isPrefixOf_eq_true_iff.mpr (List.prefix_refl _)] at h2
        exact absurd h2 (by decide)
      | cons x xt =>
        have hx : x = backtick := by
          have husub : s ++ (x :: xt) <+: s ++ fence := hu ▸ hpre
          have hxt : (x :: xt) <+: fence :=
            (List.prefix_append_right_inj s).mp husub
          obtain ⟨w, hw⟩ := hxt
          have : x :: (xt ++ w) = fence := by simpa using hw
          have := congrArg (fun l => l.head?) this
          simpa [show fence = backtick :: (("``").data) from by decide]
            using this
        have hmem : backtick ∈ ("json").data := by
          rw [← hu, hx]
          exact List.mem_append_right s (List.mem_cons_self _ _)
        exact absurd hmem (by decide)

lemma cons_backtick_not_prefix_end {w s : List Char}
    (hw : (backtick :: w).isPrefixOf fence = false) (h1 : backtick ∉ s) :
    (backtick :: w).isPrefixOf (s ++ fence) = false := by
  cases s with
  | nil => simpa using hw
  | cons c cs =>
    have hc : (backtick == c) = false := by
      simp only [beq_eq_false_iff_ne, ne_eq]
      intro hh
      exact h1 (hh ▸ List.mem_cons_self c cs)
    simp [List.isPrefixOf_cons₂, hc]

lemma splitFirst_fenceJson_middle {s : List Char} (h1 : backtick ∉ s)
    (h2 : ("json").data.isPrefixOf s = false) :
    splitFirst fenceJson (fence ++ (s ++ fence)) = none := by
  have hjf := json_isPrefixOf_append_fence h2
  have hrest := splitFirst_fenceJson_end h1
  have t1 : fenceJson.isPrefixOf (fence ++ (s ++ fence)) = false := by
    rw [show fenceJson = fence ++ ("json").data from by decide,
      isPrefixOf_append_cancel]
    exact hjf
  have t2 : fenceJson.isPrefixOf (backtick :: backtick :: (s ++ fence)) =
      false := by
    rw [show fenceJson = backtick :: backtick :: (backtick :: ("json").data)
      from by decide]
    simp only [List.isPrefixOf_cons₂, beq_self_eq_true, Bool.true_and]
    exact cons_backtick_not_prefix_end (by decide) h1
  have t3 : fenceJson.isPrefixOf (backtick :: (s ++ fence)) = false := by
    rw [show fenceJson = backtick :: (backtick :: backtick :: ("json").data)
      from by decide]
    simp only [List.isPrefixOf_cons₂, beq_self_eq_true, Bool.true_and]
    exact cons_backtick_not_prefix_end (by decide) h1
  have hshape : fence ++ (s ++ fence) =
      backtick :: backtick :: backtick :: (s ++ fence) := by
    rw [show fence = backtick :: backtick :: backtick :: ([] : List Char)
      from by decide]
    simp
  rw [hshape] at t1 ⊢
  exact splitFirst_cons_none t1
    (splitFirst_cons_none t2 (splitFirst_cons_none t3 hrest))

lemma splitFirst_some_length {sep : List Char} (hne : sep ≠ []) :
    ∀ {s b a : List Char}, splitFirst sep s = some (b, a) →
      a.length < s.length := by
  intro s
  induction s with
  | nil =>
    intro b a h
    exact absurd h (by simp [splitFirst])
  | cons c rest IH =>
    intro b a h
    cases hpre : sep.isPrefixOf (c :: rest) with
    | true =>
      simp only [splitFirst, hpre, if_true, Option.some_inj] at h
      obtain ⟨-, ha⟩ := Prod.mk.injEq .. ▸ h
      have hsep : 1 ≤ sep.length := by
        cases sep with
        | nil => exact absurd rfl hne
        | cons x xs => simp
      have := List.length_drop sep.length (c :: rest)
      rw [ha] at this
      simp only [List.length_cons] at this ⊢
      omega
    | false =>
      cases hr : splitFirst sep rest with
      | none => simp [splitFirst, hpre, hr] at h
      | some p =>
        obtain ⟨b', a'⟩ := p
        rw [splitFirst_cons_found hpre hr] at h
        simp only [Option.some_inj, Prod.mk.injEq] at h
        obtain ⟨-, ha⟩ := h
        have := IH hr
        rw [← ha]
        simp only [List.length_cons]
        omega

lemma pySplitAux_getD0 {sep : List Char} {fuel : Nat} (hfuel : 1 ≤ fuel)
    (x : List Char) :
    (pySplitAux sep fuel x).getD 0 [] = beforeFirst sep x := by
  cases fuel with
  | zero => exact absurd hfuel (by omega)
  | succ n =>
    cases h : splitFirst sep x with
    | none => simp [pySplitAux, h, beforeFirst]
    | some p =>
      obtain ⟨b, a⟩ := p
      simp [pySplitAux, h, beforeFirst]

lemma pySplit_getD0 (sep s : List Char) :
    (pySplit sep s).getD 0 [] = beforeFirst sep s :=
  pySplitAux_getD0 (by omega) s

lemma pySplitAux_succ_found {sep s b a : List Char}
    (h : splitFirst sep s = some (b, a)) (fuel : Nat) :
    pySplitAux sep (fuel + 1) s = b :: pySplitAux sep fuel a := by
  simp only [pySplitAux, h]

lemma pySplit_getD1 {sep s b a : List Char} (hne : sep ≠ [])
    (h : splitFirst sep s = some (b, a)) :
    (pySplit sep s).getD 1 [] = beforeFirst sep a := by
  have hlt := splitFirst_some_length hne h
  rw [pySplit]
  rw [show s.length + 1 = (s.length - 1) + 1 + 1 from by omega]
  rw [pySplitAux_succ_found h (s.length - 1 + 1)]
  rw [List.getD_cons_succ]
  exact pySplitAux_getD0 (by omega) a

/-- C3 amended: for inner content that contains no backtick and does
not begin with the four letters `json`, the three presentation forms -
wrapped in a json fence, wrapped in plain fences, and bare - all strip
to the same string, the trimmed inner content, and hence parse to the
same structured result. -/
theorem c3_fence_stripping_amended :
    ∀ (s : List Char), backtick ∉ s →
      ("json").data.isPrefixOf s = false →
      clean_json_string s = pyStrip s ∧
      clean_json_string (fenceJson ++ (s ++ fence)) = pyStrip s ∧
      clean_json_string (fence ++ (s ++ fence)) = pyStrip s := by
  intro s h1 h2
  refine ⟨?_, ?_, ?_⟩
  · have e1 : splitFirst fenceJson s = none := by
      rw [show fenceJson = backtick :: (("``json").data) from by decide]
      exact splitFirst_head_notMem h1
    have e2 : splitFirst fence s = none := by
      rw [show fence = backtick :: (("``").data) from by decide]
      exact splitFirst_head_notMem h1
    simp [clean_json_string, pyContains, e1, e2]
  · have hx0 : splitFirst fenceJson (fenceJson ++ (s ++ fence)) =
        some ([], s ++ fence) := splitFirst_append_self (by decide) _
    have hcont : pyContains fenceJson (fenceJson ++ (s ++ fence)) = true := by
      simp [pyContains, hx0]
    have hbf1 : beforeFirst fenceJson (s ++ fence) = s ++ fence := by
      simp [beforeFirst, splitFirst_fenceJson_end h1]
    have hbf2 : beforeFirst fence (s ++ fence) = s := by
      simp [beforeFirst, splitFirst_fence_end h1]
    simp only [clean_json_string, hcont, if_true]
    rw [pySplit_getD1 (by decide) hx0, hbf1, pySplit_getD0, hbf2]
  · have hno : splitFirst fenceJson (fence ++ (s ++ fence)) = none :=
      splitFirst_fenceJson_middle h1 h2
    have hc1 : pyContains fenceJson (fence ++ (s ++ fence)) = false := by
      simp [pyContains, hno]
    have hy0 : splitFirst fence (fence ++ (s ++ fence)) =
        some ([], s ++ fence) := splitFirst_append_self (by decide) _
    have hc2 : pyContains fence (fence ++ (s ++ fence)) = true := by
      simp [pyContains, hy0]
    have hbf2 : beforeFirst fence (s ++ fence) = s := by
      simp [beforeFirst, splitFirst_fence_end h1]
    have e2 : splitFirst fence s = none := by
      rw [show fence = backtick :: (("``").data) from by decide]
      exact splitFirst_head_notMem h1
    have hbf3 : beforeFirst fence s = s := by simp [beforeFirst, e2]
    simp only [clean_json_string, hc1, hc2, if_false, if_true,
      Bool.false_eq_true]
    rw [pySplit_getD1 (by decide) hy0, hbf2, pySplit_getD0, hbf3]

/-- Witness for the amended C3 at a backtick-free JSON object body:
all three forms strip to the trimmed body. -/
theorem c3_fence_stripping_witness :
    clean_json_string plainBody = pyStrip plainBody ∧
    clean_json_string (fenceJson ++ (plainBody ++ fence)) =
      pyStrip plainBody ∧
    clean_json_string (fence ++ (plainBody ++ fence)) = pyStrip plainBody :=
  c3_fence_stripping_amended plainBody (by decide) (by decide)

/-- C3 counterexample: for inner content that itself contains a code
fence inside a JSON string - the valid JSON object
`{"a": "x(fence) 1 (fence)y"}` - the bare form strips to `1` (which
parses as the JSON number 1) while the json-fenced form of the same
inner content strips to the non-JSON fragment `{"a": "x`, so the
three forms do not yield the same parsed structured result. -/
theorem c3_fence_stripping_counterexample :
    clean_json_string trickyBody = ("1").data ∧
    clean_json_string (fenceJson ++ (trickyBody ++ fence)) =
      ("\x7b\"a\": \"x").data ∧
    clean_json_string (fenceJson ++ (trickyBody ++ fence)) ≠
      clean_json_string trickyBody := by
  refine ⟨by decide, by decide, by decide⟩

end VideoAnalytics
